import Mathlib

/-!
# SockChat: the v2 chat server (`v2/server/server.go`) and the v1 reader

A shallow embedding of the command processor (`processCommand`), the credential
store (`addUserCredentials`, `checkCredentials`, v1 `createCredential`), the
router (`ChatBoard.SendMessage`) and one pass of the v1 reader (`read`, `login`).

Modelling conventions.

* A Go `string` is a Lean `String`; `len` is the number of bytes of its UTF-8
  encoding.
* A Go channel send `ch <- v` is recorded as an entry of a trace: the values
  sent, in program order.  Blocking and goroutine scheduling are not modelled.
* A `*Client` is an address (`Ptr`); the fields of the pointed-to clients are
  read through a `Heap`.
* A run-time panic is recorded in the result together with the effects that
  happened before it.
* Logging (`log.Print*`, `fmt.Println`) and the writes to `users.txt` have no
  influence on the values modelled here and are left out.
-/

namespace SockChat

/-! ## Go string primitives -/

/-- Go `len(s)` on a string: its length in bytes. -/
def len (s : String) : Nat := s.utf8ByteSize

/-- Go `strings.TrimRight(s, cutset)`: `s` without its trailing characters that
occur in `cutset`. -/
def TrimRight (s cutset : String) : String :=
  ⟨s.data.rdropWhile (fun ch => cutset.data.contains ch)⟩

/-- The loop of Go `strings.SplitN` (`genSplit`) for a one-character separator:
cut at the first `n - 1` separators, the last field is the unsplit rest. -/
def genSplit (sep : Char) : Nat → List Char → List (List Char)
  | 0, _ => []
  | 1, s => [s]
  | n + 2, s =>
    match s.span (fun ch => ch != sep) with
    | (a, []) => [a]
    | (a, _ :: rest) => a :: genSplit sep (n + 1) rest

/-- Go `strings.SplitN(s, sep, n)` for a one-character separator `sep` and
`n ≥ 0`. -/
def SplitN (s : String) (sep : Char) (n : Nat) : List String :=
  (genSplit sep n s.data).map String.mk

/-! ## The credential store -/

/-- A `Credentials` value of v2 (`credential` in v1). -/
structure Credentials where
  Username : String
  Password : String
  deriving DecidableEq

/-- A Go `error` value: `errors.New msg` or the sentinel `io.EOF`. -/
inductive GoError where
  | new (msg : String)
  | EOF
  deriving DecidableEq

/-- The outcome of a store operation: the returned error (`none` is `nil`) and
the global credential slice afterwards. -/
structure StoreResult where
  err : Option GoError
  list : List Credentials
  deriving DecidableEq

/-- The loop `for _, cred := range list { if cred.Username == username {...} }`:
is some credential registered under `username`? -/
def userExists (list : List Credentials) (username : String) : Bool :=
  list.any (fun cred => cred.Username == username)

/-- The function `addUserCredentials` of v2, on the global slice `list`. -/
def addUserCredentials (list : List Credentials) (username password : String) :
    StoreResult :=
  if len username ≥ 32 then
    ⟨some (.new "Username must be less than 32 characters."), list⟩
  else if len password < 4 ∨ len password > 8 then
    ⟨some (.new "Password must be between 4 and 8 characters."), list⟩
  else if userExists list username then
    ⟨some (.new "User already exists."), list⟩
  else
    ⟨none, list ++ [⟨username, password⟩]⟩

/-- The function `createCredential` of v1, on the global slice `creds`. -/
def createCredential (creds : List Credentials) (userID password : String) :
    StoreResult :=
  if len userID ≥ 32 then
    ⟨some (.new "username must be less than 32 characters"), creds⟩
  else if len password < 4 ∨ len password > 8 then
    ⟨some (.new "password must be between 4 and 8 characters"), creds⟩
  else if userExists creds userID then
    ⟨some (.new "user already exists"), creds⟩
  else
    ⟨none, creds ++ [⟨userID, password⟩]⟩

/-- The function `checkCredentials` of v2: some credential has both the user
name and the password. -/
def checkCredentials (list : List Credentials) (username password : String) :
    Bool :=
  list.any (fun cred => cred.Username == username && cred.Password == password)

/-! ## Sessions and the command processor -/

/-- The fields of a v2 `Client` that the command processor and the router read
or write: the display name, the authentication flag, and whether `conn.Close()`
was called.  The channels `in` and `out` appear as traces in the results. -/
structure Client where
  name : String
  logged : Bool
  closed : Bool
  deriving DecidableEq

/-- The client that `New` creates: name `anon`, not logged in. -/
def New : Client := ⟨"anon", false, false⟩

/-- The effects of one call of `processCommand`. -/
structure CmdResult where
  /-- the global credential slice afterwards -/
  list : List Credentials
  /-- the client afterwards -/
  client : Client
  /-- the values sent on `client.out` (replies to the session), in order -/
  sentOut : List String
  /-- the values sent on `client.in` (events for the chat board), in order -/
  sentIn : List String
  /-- the returned error, `none` for `nil` -/
  err : Option GoError
  deriving DecidableEq

/-- The function `processCommand` of v2. -/
def processCommand (list : List Credentials) (client : Client) (message : String) :
    CmdResult :=
  let splitMessage := SplitN (TrimRight message "\n") ' ' 3
  let command := splitMessage.getD 0 ""
  if splitMessage.length > 3 then
    ⟨list, client, [], [], some (.new "invalid command")⟩
  else if splitMessage.length = 2 then
    ⟨list, client, [], [], some (.new "invalid command")⟩
  else
    let argOne := if splitMessage.length > 1 then splitMessage.getD 1 "" else ""
    let argTwo := if splitMessage.length > 1 then splitMessage.getD 2 "" else ""
    if command = "who" then
      if client.logged then
        ⟨list, client, [], ["who " ++ client.name], none⟩
      else
        ⟨list, client, ["Server: Please log in first.\n"], [],
          some (.new "client not logged in")⟩
    else if command = "login" then
      if checkCredentials list argOne argTwo then
        if client.logged = false then
          ⟨list, { client with logged := true, name := argOne },
            ["Server: Welcome " ++ argOne ++ ", your login request was successful.\n"],
            ["loggedin " ++ argOne], none⟩
        else
          ⟨list, client, ["Server: You are already logged in.\n"], [], none⟩
      else
        ⟨list, client, ["Server: Authentication failed. Please try again.\n"], [],
          some (.new "authentication failed")⟩
    else if command = "newuser" then
      let r := addUserCredentials list argOne argTwo
      ⟨r.list, { client with logged := true, name := argOne },
        ["Server: Welcome " ++ argOne ++ ", you are currently logged in.\n"],
        ["loggedin " ++ argOne], none⟩
    else if command = "send" then
      if client.logged then
        ⟨list, client, [],
          [command ++ " " ++ argOne ++ " " ++ client.name ++ ": " ++ argTwo], none⟩
      else
        ⟨list, client, ["Server: please log in first.\n"], [],
          some (.new "client not logged in")⟩
    else if command = "logout" then
      if client.logged then
        ⟨list, { client with closed := true }, [], ["logout " ++ client.name],
          some .EOF⟩
      else
        ⟨list, client, ["Server: Please log in first.\n"], [],
          some (.new "client not logged in")⟩
    else
      ⟨list, client, ["Server: Command not found.\n"], [],
        some (.new "command not found")⟩

/-! ## The router -/

/-- The address of a `Client` (a `*Client` that is not nil). -/
abbrev Ptr := Nat

/-- The clients behind the addresses. -/
abbrev Heap := Ptr → Client

/-- The run-time panics the router can raise. -/
inductive Panic where
  | indexOutOfRange
  | nilDereference
  | sliceBounds
  deriving DecidableEq

/-- The registry of a `ChatBoard`: the slice `clients`, in order. -/
structure ChatBoard where
  clients : List Ptr
  deriving DecidableEq

/-- One send `client.out <- text`: the receiving client and the text. -/
abbrev Delivery := Ptr × String

/-- The effects of one call of `ChatBoard.SendMessage`: the registry afterwards,
the sends on the clients' `out` channels in program order, and the panic that
ended the call, if any. -/
structure BoardResult where
  clients : List Ptr
  sent : List Delivery
  panic : Option Panic
  deriving DecidableEq

/-- The lines enqueued to the client at `p` by a list of sends, in order. -/
def outbound (sent : List Delivery) (p : Ptr) : List String :=
  (sent.filter (fun d => d.1 == p)).map Prod.snd

/-- The first loop of the `who` branch: `currentUser` becomes the last client
named `msg[1]`, `names` collects the names of the logged-in clients. -/
def whoScan (heap : Heap) (msg : List String) :
    List Ptr → Option Ptr → List String → Except Panic (Option Ptr × List String)
  | [], currentUser, names => .ok (currentUser, names)
  | client :: rest, currentUser, names =>
    match msg[1]? with
    | none => .error .indexOutOfRange
    | some m1 =>
      let currentUser := if (heap client).name = m1 then some client else currentUser
      let names := if (heap client).logged then names ++ [(heap client).name] else names
      whoScan heap msg rest currentUser names

/-- The `who` branch. -/
def whoBranch (heap : Heap) (msg : List String) (clients : List Ptr) : BoardResult :=
  match whoScan heap msg clients none [] with
  | .error e => ⟨clients, [], some e⟩
  | .ok (none, _) => ⟨clients, [], some .nilDereference⟩
  | .ok (some currentUser, names) =>
    ⟨clients,
      [(currentUser, "Current online users\n"), (currentUser, "--------------------\n")]
        ++ names.map (fun name => (currentUser, name ++ "\n")),
      none⟩

/-- The broadcast loop: every client of the registry is sent
`msg[2] + " " + msg[3] + "\n"`. -/
def broadcast (msg : List String) :
    List Ptr → List Delivery → List Delivery × Option Panic
  | [], sent => (sent, none)
  | client :: rest, sent =>
    match msg[2]?, msg[3]? with
    | some m2, some m3 => broadcast msg rest (sent ++ [(client, m2 ++ " " ++ m3 ++ "\n")])
    | _, _ => (sent, some .indexOutOfRange)

/-- The unicast loop: every client named `msg[1]` is sent
`msg[2] + " " + msg[3] + "\n"`. -/
def unicast (heap : Heap) (msg : List String) (m1 : String) :
    List Ptr → List Delivery → List Delivery × Option Panic
  | [], sent => (sent, none)
  | client :: rest, sent =>
    if (heap client).name = m1 then
      match msg[2]?, msg[3]? with
      | some m2, some m3 =>
        unicast heap msg m1 rest (sent ++ [(client, m2 ++ " " ++ m3 ++ "\n")])
      | _, _ => (sent, some .indexOutOfRange)
    else unicast heap msg m1 rest sent

/-- The state of the `logout` loop.  `arr` is the backing array of the slice the
`range` clause iterates over (its first `len(clients)` cells at loop entry),
`len` is the current `len(chatBoard.clients)`; the slice `chatBoard.clients`
is `arr[:len]`. -/
structure LogoutState where
  arr : List Ptr
  len : Nat
  sent : List Delivery
  panic : Option Panic
  deriving DecidableEq

/-- Iteration `i` of the `logout` loop.  `client` is read from cell `i` of the
backing array.  On a name match `append(clients[:i], clients[i+1:]...)` writes
the cells of `clients[i+1:]` over the cells from `i` on, in place, and the
slice gets one shorter; `clients[i+1:]` panics when `i + 1 > len(clients)`.
Then the notice is sent to `client`. -/
def logoutStep (heap : Heap) (msg : List String) (st : LogoutState) (i : Nat) :
    LogoutState :=
  if st.panic.isSome then st
  else
    match st.arr[i]?, msg[1]? with
    | some client, some m1 =>
      if (heap client).name = m1 then
        if i + 1 > st.len then { st with panic := some .sliceBounds }
        else
          let lo := st.arr.take i
          let hi := (st.arr.take st.len).drop (i + 1)
          { arr := lo ++ hi ++ st.arr.drop (lo.length + hi.length)
            len := lo.length + hi.length
            sent := st.sent ++ [(client, m1 ++ " has left the chat.\n")]
            panic := none }
      else { st with sent := st.sent ++ [(client, m1 ++ " has left the chat.\n")] }
    | _, _ => { st with panic := some .indexOutOfRange }

/-- The `logout` branch: the loop runs over the indices of the slice as it was
at loop entry. -/
def logoutBranch (heap : Heap) (msg : List String) (clients : List Ptr) : BoardResult :=
  let st := (List.range clients.length).foldl (logoutStep heap msg)
    ⟨clients, clients.length, [], none⟩
  ⟨st.arr.take st.len, st.sent, st.panic⟩

/-- The `loggedin` loop: every logged-in client is sent the join notice. -/
def joined (heap : Heap) (msg : List String) :
    List Ptr → List Delivery → List Delivery × Option Panic
  | [], sent => (sent, none)
  | client :: rest, sent =>
    if (heap client).logged then
      match msg[1]? with
      | some m1 => joined heap msg rest (sent ++ [(client, m1 ++ " has joined the chat.\n")])
      | none => (sent, some .indexOutOfRange)
    else joined heap msg rest sent

/-- The method `ChatBoard.SendMessage` of v2. -/
def SendMessage (chatBoard : ChatBoard) (heap : Heap) (message : String) : BoardResult :=
  let msg := SplitN (TrimRight message "\n") ' ' 4
  match msg[0]? with
  | none => ⟨chatBoard.clients, [], some .indexOutOfRange⟩
  | some m0 =>
    if m0 = "who" then whoBranch heap msg chatBoard.clients
    else if m0 = "send" then
      match msg[1]? with
      | none => ⟨chatBoard.clients, [], some .indexOutOfRange⟩
      | some m1 =>
        if m1 = "all" then
          let r := broadcast msg chatBoard.clients []
          ⟨chatBoard.clients, r.1, r.2⟩
        else
          let r := unicast heap msg m1 chatBoard.clients []
          ⟨chatBoard.clients, r.1, r.2⟩
    else if m0 = "logout" then logoutBranch heap msg chatBoard.clients
    else if m0 = "loggedin" then
      let r := joined heap msg chatBoard.clients []
      ⟨chatBoard.clients, r.1, r.2⟩
    else ⟨chatBoard.clients, [], none⟩

/-- A heap for concrete inputs: address `i` holds the `i`-th client of the list,
every other address a fresh client. -/
def heapOf (cs : List Client) : Heap := fun p => cs.getD p New

/-- The fields `processCommand` splits a line into. -/
def splitMessage (message : String) : List String :=
  SplitN (TrimRight message "\n") ' ' 3

/-- The command word of a line: `splitMessage[0]`. -/
def commandOf (message : String) : String := (splitMessage message).getD 0 ""

/-! ## The v1 reader -/

/-- Go `strings.ToLower` on the letters `A` to `Z`: each is replaced by its lower
case letter.  Every other character is kept; Go also maps the upper case
letters outside ASCII, which no input used below contains. -/
def ToLower (s : String) : String := ⟨s.data.map Char.toLower⟩

/-- The method `login` of the v1 `client`: when some credential equals
`(userID, password)` the client gets the name and is logged in. -/
def login (creds : List Credentials) (client : Client) (userID password : String) :
    Client × Bool :=
  if creds.any (fun cred => decide ((⟨userID, password⟩ : Credentials) = cred)) then
    ({ client with name := userID, logged := true }, true)
  else (client, false)

/-- The effects of one pass of the loop of the v1 `read`: the global `creds`
and the client afterwards, the values sent on `client.output`, whether the loop
was left by `return`, and the panic that ended the pass, if any. -/
structure ReadResult where
  creds : List Credentials
  client : Client
  output : List String
  returned : Bool
  panic : Option Panic
  deriving DecidableEq

/-- One pass of the loop of the v1 method `read`, for the line `message` that
`ReadString` delivered. -/
def read (creds : List Credentials) (client : Client) (message : String) :
    ReadResult :=
  let message := TrimRight message "\n"
  let args := SplitN message ' ' 2
  let command := ToLower (args.getD 0 "")
  if command = "login" then
    match args[1]? with
    | none => ⟨creds, client, [], false, some .indexOutOfRange⟩
    | some rest =>
      let args := SplitN rest ' ' 2
      if args.length ≠ 2 then
        ⟨creds, client, ["Server: incorrect arguments for command login"], false, none⟩
      else if client.logged then
        ⟨creds, client, ["Server: you are already logged in"], false, none⟩
      else
        let r := login creds client (args.getD 0 "") (args.getD 1 "")
        if r.2 then
          ⟨creds, r.1,
            ["Server: welcome " ++ r.1.name ++ ", your login request was successful"],
            false, none⟩
        else ⟨creds, r.1, ["Server: authentication failed"], false, none⟩
  else if command = "newuser" then
    match args[1]? with
    | none => ⟨creds, client, [], false, some .indexOutOfRange⟩
    | some rest =>
      let args := SplitN rest ' ' 2
      if args.length ≠ 2 then
        ⟨creds, client, ["Server: incorrect arguments for command newuser"], false, none⟩
      else if client.logged then
        ⟨creds, client, ["Server: You are already logged in"], false, none⟩
      else
        let c := createCredential creds (args.getD 0 "") (args.getD 1 "")
        match c.err with
        | some (.new msg) => ⟨c.list, client, ["Server: " ++ msg], false, none⟩
        | some .EOF => ⟨c.list, client, ["Server: " ++ "EOF"], false, none⟩
        | none =>
          let r := login c.list client (args.getD 0 "") (args.getD 1 "")
          if r.2 then
            ⟨c.list, r.1,
              ["Server: welcome " ++ r.1.name ++ ", your login request was successful"],
              false, none⟩
          else ⟨c.list, r.1, ["Server: authentication failed"], false, none⟩
  else if command = "send" then
    if client.logged then
      if args.length = 2 then
        ⟨creds, client, [client.name ++ ": " ++ args.getD 1 ""], false, none⟩
      else
        ⟨creds, client, ["Server: incorrect arguments for command send"], false, none⟩
    else
      ⟨creds, client, ["Server: you must be logged in to use this command"], false, none⟩
  else if command = "logout" then
    if client.logged then
      ⟨creds, { client with closed := true }, [], true, none⟩
    else
      ⟨creds, client, ["Server: you must be logged in to use this command"], false, none⟩
  else
    ⟨creds, client, ["Server: command not found"], false, none⟩

/-! ## Lemmas on splitting -/

theorem genSplit_length_le (sep : Char) :
    ∀ (n : Nat) (s : List Char), (genSplit sep n s).length ≤ n
  | 0, _ => by simp [genSplit]
  | 1, _ => by simp [genSplit]
  | n + 2, s => by
    rw [genSplit]
    split
    · simp
    · simpa using genSplit_length_le sep (n + 1) _

theorem SplitN_length_le (s : String) (sep : Char) (n : Nat) :
    (SplitN s sep n).length ≤ n := by
  simpa [SplitN] using genSplit_length_le sep n s.data

theorem splitMessage_length_le (message : String) :
    (splitMessage message).length ≤ 3 :=
  SplitN_length_le _ _ _

theorem span_sep (sep : Char) (rest : List Char) :
    ∀ (a : List Char), sep ∉ a →
      (a ++ sep :: rest).span (fun ch => ch != sep) = (a, sep :: rest)
  | [], _ => by simp [List.span_eq_take_drop]
  | x :: a, h => by
    have hx : x ≠ sep := fun e => h (by simp [e])
    have ha : sep ∉ a := fun e => h (by simp [e])
    have ih := span_sep sep rest a ha
    simp only [List.span_eq_take_drop, Prod.mk.injEq] at ih ⊢
    simp [hx, ih.1, ih.2]

theorem span_no_sep (sep : Char) :
    ∀ (a : List Char), sep ∉ a → a.span (fun ch => ch != sep) = (a, [])
  | [], _ => by simp [List.span_eq_take_drop]
  | x :: a, h => by
    have hx : x ≠ sep := fun e => h (by simp [e])
    have ha : sep ∉ a := fun e => h (by simp [e])
    have ih := span_no_sep sep a ha
    simp only [List.span_eq_take_drop, Prod.mk.injEq] at ih ⊢
    simp [hx, ih.1, ih.2]

theorem genSplit_cons (sep : Char) (n : Nat) (a rest : List Char) (h : sep ∉ a) :
    genSplit sep (n + 2) (a ++ sep :: rest) = a :: genSplit sep (n + 1) rest := by
  rw [genSplit, span_sep sep rest a h]

theorem genSplit_no_sep (sep : Char) (n : Nat) (a : List Char) (h : sep ∉ a) :
    genSplit sep (n + 1) a = [a] := by
  cases n with
  | zero => rfl
  | succ n => rw [genSplit, span_no_sep sep a h]

/-- A string of two space-free fields splits into them, for every limit of at
least two fields. -/
theorem SplitN_two (a b : String) (n : Nat) (ha : ' ' ∉ a.data) (hb : ' ' ∉ b.data) :
    SplitN (a ++ " " ++ b) ' ' (n + 2) = [a, b] := by
  have hd : (a ++ " " ++ b).data = a.data ++ ' ' :: b.data := by
    simp [String.data_append]
  unfold SplitN
  rw [hd, genSplit_cons ' ' n _ _ ha, genSplit_no_sep ' ' n _ hb]
  simp

/-- With the limit 3, a line of a command word, a space-free first argument and
any rest splits into these three. -/
theorem SplitN_three (a b c : String) (ha : ' ' ∉ a.data) (hb : ' ' ∉ b.data) :
    SplitN (a ++ " " ++ b ++ " " ++ c) ' ' 3 = [a, b, c] := by
  have hd : (a ++ " " ++ b ++ " " ++ c).data = a.data ++ ' ' :: (b.data ++ ' ' :: c.data) := by
    simp [String.data_append]
  unfold SplitN
  rw [hd, genSplit_cons ' ' 1 _ _ ha, genSplit_cons ' ' 0 _ _ hb]
  simp [genSplit]

/-- With the limit 4, an event of three space-free words and any rest splits
into these four. -/
theorem SplitN_four (a b c d : String) (ha : ' ' ∉ a.data) (hb : ' ' ∉ b.data)
    (hc : ' ' ∉ c.data) :
    SplitN (a ++ " " ++ b ++ " " ++ c ++ " " ++ d) ' ' 4 = [a, b, c, d] := by
  have hd : (a ++ " " ++ b ++ " " ++ c ++ " " ++ d).data
      = a.data ++ ' ' :: (b.data ++ ' ' :: (c.data ++ ' ' :: d.data)) := by
    simp [String.data_append]
  unfold SplitN
  rw [hd, genSplit_cons ' ' 2 _ _ ha, genSplit_cons ' ' 1 _ _ hb,
    genSplit_cons ' ' 0 _ _ hc]
  simp [genSplit]

/-- `TrimRight` leaves a string alone whose last part is non-empty and free of
newlines. -/
theorem TrimRight_append (s t : String) (hne : t.data ≠ []) (ht : '\n' ∉ t.data) :
    TrimRight (s ++ t) "\n" = s ++ t := by
  have hd : (s ++ t).data = s.data ++ t.data := String.data_append s t
  have hl : (s.data ++ t.data).rdropWhile (fun ch => "\n".data.contains ch)
      = s.data ++ t.data := by
    rw [List.rdropWhile_eq_self_iff]
    intro hl
    rw [List.getLast_append_of_ne_nil hne]
    have hmem := List.getLast_mem hne
    intro hp
    have : t.data.getLast hne = '\n' := by simpa using hp
    exact ht (this ▸ hmem)
  unfold TrimRight
  rw [hd, hl, ← hd]

/-- `TrimRight` removes the newline that ends a line. -/
theorem TrimRight_newline (s : String) :
    TrimRight (s ++ "\n") "\n" = TrimRight s "\n" := by
  have hd : (s ++ "\n").data = s.data ++ ['\n'] := by simp [String.data_append]
  unfold TrimRight
  rw [hd, List.rdropWhile_concat_pos]
  simp

/-- The fields of a line `c a rest`, ended by a newline. -/
theorem splitMessage_line (c a rest : String) (hc : ' ' ∉ c.data) (ha : ' ' ∉ a.data)
    (hr : '\n' ∉ rest.data) :
    splitMessage (c ++ " " ++ a ++ " " ++ rest ++ "\n") = [c, a, rest] := by
  unfold splitMessage
  rw [TrimRight_newline]
  have e : c ++ " " ++ a ++ " " ++ rest = (c ++ " " ++ a) ++ (" " ++ rest) := by
    simp [String.append_assoc]
  have hne : (" " ++ rest).data ≠ [] := by simp [String.data_append]
  have hnl : '\n' ∉ (" " ++ rest).data := by simp [String.data_append, hr]
  rw [e, TrimRight_append _ _ hne hnl, ← e]
  exact SplitN_three c a rest hc ha

/-- The fields of the event `send x n: t` that `processCommand` emits. -/
theorem sendEvent_fields (x n t : String) (hx : ' ' ∉ x.data) (hn : ' ' ∉ n.data)
    (ht : '\n' ∉ t.data) :
    SplitN (TrimRight ("send" ++ " " ++ x ++ " " ++ n ++ ": " ++ t) "\n") ' ' 4
      = ["send", x, n ++ ":", t] := by
  have e : "send" ++ " " ++ x ++ " " ++ n ++ ": " ++ t
      = ("send" ++ " " ++ x ++ " " ++ (n ++ ":")) ++ (" " ++ t) := by
    apply String.ext
    simp [String.data_append]
  have e' : ("send" ++ " " ++ x ++ " " ++ (n ++ ":")) ++ (" " ++ t)
      = "send" ++ " " ++ x ++ " " ++ (n ++ ":") ++ " " ++ t :=
    (String.append_assoc _ _ _).symm
  have hne : (" " ++ t).data ≠ [] := by simp [String.data_append]
  have hnl : '\n' ∉ (" " ++ t).data := by simp [String.data_append, ht]
  have hc : ' ' ∉ (n ++ ":").data := by simp [String.data_append, hn]
  rw [e, TrimRight_append _ _ hne hnl, e']
  exact SplitN_four "send" x (n ++ ":") t (by decide) hx hc

/-- The fields of an event `word name` (`who r`, `logout n`). -/
theorem nameEvent_fields (w r : String) (hw : ' ' ∉ w.data) (hs : ' ' ∉ r.data)
    (hr : '\n' ∉ r.data) :
    SplitN (TrimRight (w ++ " " ++ r) "\n") ' ' 4 = [w, r] := by
  have e : w ++ " " ++ r = w ++ (" " ++ r) := by simp [String.append_assoc]
  have hne : (" " ++ r).data ≠ [] := by simp [String.data_append]
  have hnl : '\n' ∉ (" " ++ r).data := by simp [String.data_append, hr]
  rw [e, TrimRight_append _ _ hne hnl, ← e]
  exact SplitN_two w r 2 hw hs

/-! ## The command processor: authentication gate, login, registration -/

/-- C1 (as amended): for a session that is not logged in and a line whose command
word is `who`, `send` or `logout`, `processCommand` sends nothing to the router
and leaves the session and the credential list as they were; when the line has
one or three fields the reply is the log-in-first message (capital `P` for `who`
and `logout`, lower case for `send`) with the error `client not logged in`, and
when it has exactly two fields nothing is replied and the error is
`invalid command`. -/
theorem processCommand_gate (list : List Credentials) (client : Client)
    (message : String) (hlog : client.logged = false)
    (hcmd : commandOf message = "who" ∨ commandOf message = "send" ∨
      commandOf message = "logout") :
    (processCommand list client message).sentIn = [] ∧
    (processCommand list client message).client = client ∧
    (processCommand list client message).list = list ∧
    ((splitMessage message).length ≠ 2 →
      (processCommand list client message).sentOut =
          [if commandOf message = "send" then "Server: please log in first.\n"
           else "Server: Please log in first.\n"] ∧
      (processCommand list client message).err = some (.new "client not logged in")) ∧
    ((splitMessage message).length = 2 →
      (processCommand list client message).sentOut = [] ∧
      (processCommand list client message).err = some (.new "invalid command")) := by
  have h3 := splitMessage_length_le message
  unfold commandOf splitMessage at *
  unfold processCommand
  generalize SplitN (TrimRight message "\n") ' ' 3 = fs at *
  match fs, h3 with
  | [], _ => simp at hcmd
  | [c], _ =>
    simp only [List.getD_cons_zero] at hcmd
    rcases hcmd with h | h | h <;> subst h <;> simp [hlog]
  | [c, a], _ => simp
  | [c, a, b], _ =>
    simp only [List.getD_cons_zero] at hcmd
    rcases hcmd with h | h | h <;> subst h <;> simp [hlog]

/-- C1, witness: the gate at the line `send bob hello there` from a fresh session. -/
theorem processCommand_gate_witness :
    (New.logged = false ∧
      (commandOf "send bob hello there\n" = "who" ∨
        commandOf "send bob hello there\n" = "send" ∨
        commandOf "send bob hello there\n" = "logout")) ∧
    (processCommand [] New "send bob hello there\n").sentIn = [] ∧
    (processCommand [] New "send bob hello there\n").client = New ∧
    (processCommand [] New "send bob hello there\n").list = [] ∧
    ((splitMessage "send bob hello there\n").length ≠ 2 →
      (processCommand [] New "send bob hello there\n").sentOut =
          [if commandOf "send bob hello there\n" = "send"
           then "Server: please log in first.\n"
           else "Server: Please log in first.\n"] ∧
      (processCommand [] New "send bob hello there\n").err =
        some (.new "client not logged in")) ∧
    ((splitMessage "send bob hello there\n").length = 2 →
      (processCommand [] New "send bob hello there\n").sentOut = [] ∧
      (processCommand [] New "send bob hello there\n").err =
        some (.new "invalid command")) :=
  ⟨by decide,
    processCommand_gate [] New "send bob hello there\n" (by decide) (by decide)⟩

/-- C1, counterexample: a fresh session sends `who x` (command `who`, one
argument); no log-in-first reply is enqueued, the call only returns the error
`invalid command`. -/
theorem processCommand_gate_counterexample :
    New.logged = false ∧ commandOf "who x\n" = "who" ∧
    "Server: Please log in first.\n" ∉ (processCommand [] New "who x\n").sentOut ∧
    processCommand [] New "who x\n" = ⟨[], New, [], [], some (.new "invalid command")⟩ := by
  decide

theorem checkCredentials_iff (list : List Credentials) (u p : String) :
    checkCredentials list u p = true ↔ (⟨u, p⟩ : Credentials) ∈ list := by
  simp only [checkCredentials, List.any_eq_true, Bool.and_eq_true, beq_iff_eq]
  constructor
  · rintro ⟨⟨cu, cp⟩, hmem, hu, hp⟩
    simp only at hu hp
    subst hu hp
    exact hmem
  · intro h
    exact ⟨_, h, rfl, rfl⟩

/-- C2: for a line that `processCommand` splits into `login`, `u`, `p`: if the
session is not logged in and `checkCredentials u p` holds, the session becomes
logged in under the name `u` and exactly one event, `loggedin u`, goes to the
router; in every other case the session is unchanged and no event is sent.
The credential list is never changed, and `checkCredentials u p` holds exactly
when the list holds the credential `(u, p)`. -/
theorem processCommand_login (list : List Credentials) (client : Client)
    (message u p : String) (hline : splitMessage message = ["login", u, p]) :
    (client.logged = false ∧ checkCredentials list u p = true →
      (processCommand list client message).client.logged = true ∧
      (processCommand list client message).client.name = u ∧
      (processCommand list client message).sentIn = ["loggedin " ++ u]) ∧
    (¬ (client.logged = false ∧ checkCredentials list u p = true) →
      (processCommand list client message).client = client ∧
      (processCommand list client message).sentIn = []) ∧
    (processCommand list client message).list = list ∧
    (checkCredentials list u p = true ↔ (⟨u, p⟩ : Credentials) ∈ list) := by
  refine ⟨?_, ?_, ?_, checkCredentials_iff list u p⟩
  all_goals
    unfold splitMessage at hline
    unfold processCommand
    rw [hline]
  · rintro ⟨hl, hc⟩
    simp [hl, hc]
  · intro h
    by_cases hc : checkCredentials list u p = true
    · have hl : client.logged = true := by
        cases hlog : client.logged
        · exact absurd ⟨hlog, hc⟩ h
        · rfl
      simp [hl, hc]
    · simp [hc]
  · by_cases hc : checkCredentials list u p = true <;>
      by_cases hl : client.logged = true <;> simp [hc, hl]

/-- C2, witness: `login alice pw12` from a fresh session, with `alice` registered. -/
theorem processCommand_login_witness :
    splitMessage "login alice pw12\n" = ["login", "alice", "pw12"] ∧
    (New.logged = false ∧ checkCredentials [⟨"alice", "pw12"⟩] "alice" "pw12" = true →
      (processCommand [⟨"alice", "pw12"⟩] New "login alice pw12\n").client.logged = true ∧
      (processCommand [⟨"alice", "pw12"⟩] New "login alice pw12\n").client.name = "alice" ∧
      (processCommand [⟨"alice", "pw12"⟩] New "login alice pw12\n").sentIn
        = ["loggedin " ++ "alice"]) ∧
    (¬ (New.logged = false ∧ checkCredentials [⟨"alice", "pw12"⟩] "alice" "pw12" = true) →
      (processCommand [⟨"alice", "pw12"⟩] New "login alice pw12\n").client = New ∧
      (processCommand [⟨"alice", "pw12"⟩] New "login alice pw12\n").sentIn = []) ∧
    (processCommand [⟨"alice", "pw12"⟩] New "login alice pw12\n").list
      = [⟨"alice", "pw12"⟩] ∧
    (checkCredentials [⟨"alice", "pw12"⟩] "alice" "pw12" = true ↔
      (⟨"alice", "pw12"⟩ : Credentials) ∈ [(⟨"alice", "pw12"⟩ : Credentials)]) :=
  ⟨by decide,
    processCommand_login [⟨"alice", "pw12"⟩] New "login alice pw12\n" "alice" "pw12"
      (by decide)⟩

theorem userExists_iff (list : List Credentials) (u : String) :
    userExists list u = true ↔ ∃ c ∈ list, c.Username = u := by
  simp [userExists]

/-- C3: `addUserCredentials` (v2) and `createCredential` (v1) return an error
exactly when the user name has 32 bytes or more, or the password has fewer than
4 or more than 8 bytes, or a credential with that user name is in the list.
Each cause has its own message (checked in this order), the three messages are
pairwise different; on an error the list is unchanged, without an error the
list is the old list with `(username, password)` appended. -/
theorem addUserCredentials_spec (list : List Credentials) (u p : String) :
    (((addUserCredentials list u p).err ≠ none ↔
        (len u ≥ 32 ∨ len p < 4 ∨ len p > 8 ∨ ∃ c ∈ list, c.Username = u)) ∧
      (len u ≥ 32 → (addUserCredentials list u p).err =
        some (.new "Username must be less than 32 characters.")) ∧
      (len u < 32 → (len p < 4 ∨ len p > 8) → (addUserCredentials list u p).err =
        some (.new "Password must be between 4 and 8 characters.")) ∧
      (len u < 32 → 4 ≤ len p → len p ≤ 8 → (∃ c ∈ list, c.Username = u) →
        (addUserCredentials list u p).err = some (.new "User already exists.")) ∧
      ((addUserCredentials list u p).err ≠ none →
        (addUserCredentials list u p).list = list) ∧
      ((addUserCredentials list u p).err = none →
        (addUserCredentials list u p).list = list ++ [⟨u, p⟩])) ∧
    (((createCredential list u p).err ≠ none ↔
        (len u ≥ 32 ∨ len p < 4 ∨ len p > 8 ∨ ∃ c ∈ list, c.Username = u)) ∧
      (len u ≥ 32 → (createCredential list u p).err =
        some (.new "username must be less than 32 characters")) ∧
      (len u < 32 → (len p < 4 ∨ len p > 8) → (createCredential list u p).err =
        some (.new "password must be between 4 and 8 characters")) ∧
      (len u < 32 → 4 ≤ len p → len p ≤ 8 → (∃ c ∈ list, c.Username = u) →
        (createCredential list u p).err = some (.new "user already exists")) ∧
      ((createCredential list u p).err ≠ none →
        (createCredential list u p).list = list) ∧
      ((createCredential list u p).err = none →
        (createCredential list u p).list = list ++ [⟨u, p⟩])) ∧
    (GoError.new "Username must be less than 32 characters." ≠
        GoError.new "Password must be between 4 and 8 characters." ∧
      GoError.new "Username must be less than 32 characters." ≠
        GoError.new "User already exists." ∧
      GoError.new "Password must be between 4 and 8 characters." ≠
        GoError.new "User already exists.") ∧
    (GoError.new "username must be less than 32 characters" ≠
        GoError.new "password must be between 4 and 8 characters" ∧
      GoError.new "username must be less than 32 characters" ≠
        GoError.new "user already exists" ∧
      GoError.new "password must be between 4 and 8 characters" ≠
        GoError.new "user already exists") := by
  have hex := userExists_iff list u
  refine ⟨?_, ?_, by decide, by decide⟩
  · unfold addUserCredentials
    by_cases h1 : len u ≥ 32
    · simp [h1]
    · by_cases h2 : len p < 4 ∨ len p > 8
      · simp [h1, h2]
        omega
      · by_cases h3 : userExists list u = true
        · have h3' := hex.mp h3
          simp [h1, h2, h3]
          exact Or.inr (Or.inr h3')
        · have h3' : ∀ x ∈ list, ¬ x.Username = u := by
            intro x hx hxu
            exact h3 (hex.mpr ⟨x, hx, hxu⟩)
          simp [h1, h2, h3]
          exact ⟨⟨by omega, by omega, h3'⟩, fun _ _ _ => h3'⟩
  · unfold createCredential
    by_cases h1 : len u ≥ 32
    · simp [h1]
    · by_cases h2 : len p < 4 ∨ len p > 8
      · simp [h1, h2]
        omega
      · by_cases h3 : userExists list u = true
        · have h3' := hex.mp h3
          simp [h1, h2, h3]
          exact Or.inr (Or.inr h3')
        · have h3' : ∀ x ∈ list, ¬ x.Username = u := by
            intro x hx hxu
            exact h3 (hex.mpr ⟨x, hx, hxu⟩)
          simp [h1, h2, h3]
          exact ⟨⟨by omega, by omega, h3'⟩, fun _ _ _ => h3'⟩

/-- C4, the code at the failing input: `alice` is registered with the password
`pw12`; a fresh session sends `newuser alice pw99`.  `addUserCredentials`
rejects the registration (`User already exists.`) and leaves the list as it
was, yet `processCommand` marks the session logged in under the name `alice`,
welcomes it and sends the join event `loggedin alice` to the router. -/
theorem processCommand_newuser_rejected :
    (addUserCredentials [⟨"alice", "pw12"⟩] "alice" "pw99").err
      = some (.new "User already exists.") ∧
    processCommand [⟨"alice", "pw12"⟩] New "newuser alice pw99\n"
      = ⟨[⟨"alice", "pw12"⟩], ⟨"alice", true, false⟩,
          ["Server: Welcome alice, you are currently logged in.\n"],
          ["loggedin alice"], none⟩ := by
  decide

/-! ## The router: broadcast, unicast, who -/

theorem mem_outbound (sent : List Delivery) (p : Ptr) (line : String)
    (h : (p, line) ∈ sent) : line ∈ outbound sent p := by
  simp only [outbound, List.mem_map, List.mem_filter]
  exact ⟨(p, line), ⟨h, by simp⟩, rfl⟩

theorem outbound_map (line : String) (p : Ptr) :
    ∀ cs : List Ptr,
      outbound (cs.map (fun q => (q, line))) p = List.replicate (cs.count p) line
  | [] => by simp [outbound]
  | c :: cs => by
    have ih := outbound_map line p cs
    unfold outbound at ih ⊢
    by_cases h : c = p
    · subst h
      simp [List.filter_cons, ih, List.replicate_succ]
    · have h' : (c == p) = false := by simpa using h
      simp [List.filter_cons, ih, h, List.count_cons]

theorem broadcast_eq (a b c d : String) :
    ∀ (cs : List Ptr) (sent : List Delivery),
      broadcast [a, b, c, d] cs sent
        = (sent ++ cs.map (fun q => (q, c ++ " " ++ d ++ "\n")), none)
  | [], sent => by simp [broadcast]
  | q :: cs, sent => by
    rw [broadcast]
    simp [broadcast_eq a b c d cs]

theorem unicast_eq (heap : Heap) (a b c d m1 : String) :
    ∀ (cs : List Ptr) (sent : List Delivery),
      unicast heap [a, b, c, d] m1 cs sent
        = (sent ++ (cs.filter (fun q => (heap q).name == m1)).map
            (fun q => (q, c ++ " " ++ d ++ "\n")), none)
  | [], sent => by simp [unicast]
  | q :: cs, sent => by
    rw [unicast]
    by_cases h : (heap q).name = m1
    · simp [h, unicast_eq heap a b c d m1 cs, List.filter_cons]
    · simp [h, unicast_eq heap a b c d m1 cs, List.filter_cons]

/-- C5: an authenticated sender `n` in the registry sends the line `send all t`.
`processCommand` emits the single event `send all n: t` and leaves the sender
as it was; `SendMessage` on that event ends without panic, leaves the registry
unchanged and sends the line `n: t` (ended by a newline, `t` as typed) once to
every entry of the registry in registry order; so the line is enqueued to every
authenticated session of the registry and to the sender, exactly once when the
registry has no entry twice. -/
theorem broadcast_end_to_end (list : List Credentials) (chatBoard : ChatBoard)
    (heap : Heap) (sender : Ptr) (n t : String)
    (hmem : sender ∈ chatBoard.clients) (hlog : (heap sender).logged = true)
    (hname : (heap sender).name = n) (hn : ' ' ∉ n.data) (ht : '\n' ∉ t.data) :
    (processCommand list (heap sender) ("send all " ++ t ++ "\n")).sentIn
      = ["send all " ++ n ++ ": " ++ t] ∧
    (processCommand list (heap sender) ("send all " ++ t ++ "\n")).client = heap sender ∧
    (SendMessage chatBoard heap ("send all " ++ n ++ ": " ++ t)).panic = none ∧
    (SendMessage chatBoard heap ("send all " ++ n ++ ": " ++ t)).clients
      = chatBoard.clients ∧
    (SendMessage chatBoard heap ("send all " ++ n ++ ": " ++ t)).sent
      = chatBoard.clients.map (fun q => (q, n ++ ": " ++ t ++ "\n")) ∧
    (∀ q ∈ chatBoard.clients, (heap q).logged = true →
      (n ++ ": " ++ t ++ "\n") ∈
        outbound (SendMessage chatBoard heap ("send all " ++ n ++ ": " ++ t)).sent q) ∧
    (n ++ ": " ++ t ++ "\n") ∈
      outbound (SendMessage chatBoard heap ("send all " ++ n ++ ": " ++ t)).sent sender ∧
    (chatBoard.clients.Nodup → ∀ q ∈ chatBoard.clients,
      outbound (SendMessage chatBoard heap ("send all " ++ n ++ ": " ++ t)).sent q
        = [n ++ ": " ++ t ++ "\n"]) := by
  have hline : splitMessage ("send all " ++ t ++ "\n") = ["send", "all", t] :=
    splitMessage_line "send" "all" t (by decide) (by decide) ht
  have hev : SplitN (TrimRight ("send all " ++ n ++ ": " ++ t) "\n") ' ' 4
      = ["send", "all", n ++ ":", t] :=
    sendEvent_fields "all" n t (by decide) hn ht
  have hl : n ++ ":" ++ " " ++ t ++ "\n" = n ++ ": " ++ t ++ "\n" := by
    apply String.ext
    simp [String.data_append]
  have hsent : (SendMessage chatBoard heap ("send all " ++ n ++ ": " ++ t)).sent
      = chatBoard.clients.map (fun q => (q, n ++ ": " ++ t ++ "\n")) := by
    unfold SendMessage
    rw [hev]
    simp [broadcast_eq, hl]
  refine ⟨?_, ?_, ?_, ?_, hsent, ?_, ?_, ?_⟩
  · unfold splitMessage at hline
    unfold processCommand
    rw [hline]
    simp [hlog, hname]
  · unfold splitMessage at hline
    unfold processCommand
    rw [hline]
    simp [hlog]
  · unfold SendMessage
    rw [hev]
    simp [broadcast_eq]
  · unfold SendMessage
    rw [hev]
    simp
  · intro q hq _
    rw [hsent]
    exact mem_outbound _ _ _ (List.mem_map.mpr ⟨q, hq, rfl⟩)
  · rw [hsent]
    exact mem_outbound _ _ _ (List.mem_map.mpr ⟨sender, hmem, rfl⟩)
  · intro hnd q hq
    rw [hsent, outbound_map, List.count_eq_one_of_mem hnd hq]
    rfl

/-- C5, witness: `alice` (address 0) and `bob` (address 1) are logged in and
`alice` sends `send all hi there`; both receive `alice: hi there`. -/
theorem broadcast_end_to_end_witness :
    (0 ∈ (ChatBoard.mk [0, 1]).clients ∧
      (heapOf [⟨"alice", true, false⟩, ⟨"bob", true, false⟩] 0).logged = true ∧
      (heapOf [⟨"alice", true, false⟩, ⟨"bob", true, false⟩] 0).name = "alice" ∧
      ' ' ∉ "alice".data ∧ '\n' ∉ "hi there".data) ∧
    (processCommand [] (heapOf [⟨"alice", true, false⟩, ⟨"bob", true, false⟩] 0)
        "send all hi there\n").sentIn = ["send all alice: hi there"] ∧
    (SendMessage ⟨[0, 1]⟩ (heapOf [⟨"alice", true, false⟩, ⟨"bob", true, false⟩])
        "send all alice: hi there").sent
      = [(0, "alice: hi there\n"), (1, "alice: hi there\n")] :=
  have h := broadcast_end_to_end [] ⟨[0, 1]⟩
    (heapOf [⟨"alice", true, false⟩, ⟨"bob", true, false⟩]) 0 "alice" "hi there"
    (by decide) (by decide) (by decide) (by decide) (by decide)
  ⟨by decide, h.1, h.2.2.2.2.1⟩

/-- C6 (as amended): for an event `send x n: t` whose target `x` is not `all`,
`SendMessage` ends without panic, leaves the registry unchanged and sends the
line `n: t` once to each entry of the registry whose name is exactly `x`, in
registry order, whether that session is logged in or not, and to no other
session; when no session of the registry has the name `x` nothing is sent. -/
theorem unicast_by_name (chatBoard : ChatBoard) (heap : Heap) (x n t : String)
    (hx : x ≠ "all") (hxs : ' ' ∉ x.data) (hn : ' ' ∉ n.data) (ht : '\n' ∉ t.data) :
    (SendMessage chatBoard heap ("send " ++ x ++ " " ++ n ++ ": " ++ t)).panic = none ∧
    (SendMessage chatBoard heap ("send " ++ x ++ " " ++ n ++ ": " ++ t)).clients
      = chatBoard.clients ∧
    (SendMessage chatBoard heap ("send " ++ x ++ " " ++ n ++ ": " ++ t)).sent
      = (chatBoard.clients.filter (fun q => (heap q).name == x)).map
          (fun q => (q, n ++ ": " ++ t ++ "\n")) ∧
    (∀ d ∈ (SendMessage chatBoard heap ("send " ++ x ++ " " ++ n ++ ": " ++ t)).sent,
      d.1 ∈ chatBoard.clients ∧ (heap d.1).name = x) ∧
    ((∀ q ∈ chatBoard.clients, (heap q).name ≠ x) →
      (SendMessage chatBoard heap ("send " ++ x ++ " " ++ n ++ ": " ++ t)).sent = []) := by
  have hev : SplitN (TrimRight ("send " ++ x ++ " " ++ n ++ ": " ++ t) "\n") ' ' 4
      = ["send", x, n ++ ":", t] :=
    sendEvent_fields x n t hxs hn ht
  have hl : n ++ ":" ++ " " ++ t ++ "\n" = n ++ ": " ++ t ++ "\n" := by
    apply String.ext
    simp [String.data_append]
  have hsent : (SendMessage chatBoard heap ("send " ++ x ++ " " ++ n ++ ": " ++ t)).sent
      = (chatBoard.clients.filter (fun q => (heap q).name == x)).map
          (fun q => (q, n ++ ": " ++ t ++ "\n")) := by
    unfold SendMessage
    rw [hev]
    simp [unicast_eq, hx, hl]
  refine ⟨?_, ?_, hsent, ?_, ?_⟩
  · unfold SendMessage
    rw [hev]
    simp [unicast_eq, hx]
  · unfold SendMessage
    rw [hev]
    simp [hx]
  · intro d hd
    rw [hsent] at hd
    obtain ⟨q, hq, rfl⟩ := List.mem_map.mp hd
    have hq' := List.mem_filter.mp hq
    exact ⟨hq'.1, by simpa using hq'.2⟩
  · intro hnone
    rw [hsent, List.filter_eq_nil_iff.mpr (fun q hq => by simpa using hnone q hq)]
    rfl

/-- C6, witness: `alice` sends `hi` to `bob`; only the session named `bob` gets it. -/
theorem unicast_by_name_witness :
    ("bob" ≠ "all" ∧ ' ' ∉ "bob".data ∧ ' ' ∉ "alice".data ∧ '\n' ∉ "hi".data) ∧
    (SendMessage ⟨[0, 1, 2]⟩
        (heapOf [⟨"alice", true, false⟩, ⟨"bob", true, false⟩, ⟨"carol", true, false⟩])
        "send bob alice: hi").sent = [(1, "alice: hi\n")] :=
  ⟨by decide,
    (unicast_by_name ⟨[0, 1, 2]⟩
      (heapOf [⟨"alice", true, false⟩, ⟨"bob", true, false⟩, ⟨"carol", true, false⟩])
      "bob" "alice" "hi" (by decide) (by decide) (by decide) (by decide)).2.2.1⟩

/-- C6, counterexample: the registry holds `alice` (logged in, address 0) and a
fresh session (address 1, name `anon`, not logged in).  No logged-in session
is named `anon`, yet the event `send anon alice: hi` is not a no-op: the line
is sent to the session at address 1, which is not logged in. -/
theorem unicast_counterexample :
    (∀ q ∈ (ChatBoard.mk [0, 1]).clients,
      ¬ ((heapOf [⟨"alice", true, false⟩, New] q).logged = true ∧
          (heapOf [⟨"alice", true, false⟩, New] q).name = "anon")) ∧
    (heapOf [⟨"alice", true, false⟩, New] 1).logged = false ∧
    SendMessage ⟨[0, 1]⟩ (heapOf [⟨"alice", true, false⟩, New]) "send anon alice: hi"
      = ⟨[0, 1], [(1, "alice: hi\n")], none⟩ := by
  decide

theorem whoScan_eq (heap : Heap) (w r : String) (cur : Ptr) :
    ∀ (cs : List Ptr) (currentUser : Option Ptr) (names : List String),
      (∀ q ∈ cs, (heap q).name = r → q = cur) →
      whoScan heap [w, r] cs currentUser names
        = .ok (if cs.any (fun q => (heap q).name == r) then some cur else currentUser,
            names ++ (cs.filter (fun q => (heap q).logged)).map (fun q => (heap q).name))
  | [], currentUser, names, _ => by simp [whoScan]
  | c :: cs, currentUser, names, h => by
    have hcs : ∀ q ∈ cs, (heap q).name = r → q = cur :=
      fun q hq => h q (List.mem_cons_of_mem c hq)
    rw [whoScan]
    simp only [List.getElem?_cons_succ, List.getElem?_cons_zero]
    rw [whoScan_eq heap w r cur cs _ _ hcs]
    by_cases hc : (heap c).name = r
    · have hcc : c = cur := h c (List.mem_cons_self c cs) hc
      subst hcc
      by_cases hl : (heap c).logged = true <;> simp [hc, hl, List.filter_cons]
    · by_cases hl : (heap c).logged = true <;> simp [hc, hl, List.filter_cons]

theorem outbound_const (cur p : Ptr) :
    ∀ lines : List String,
      outbound (lines.map (fun l => (cur, l))) p = if cur = p then lines else []
  | [] => by simp [outbound]
  | l :: lines => by
    have ih := outbound_const cur p lines
    unfold outbound at ih ⊢
    by_cases h : cur = p
    · simp [h, List.filter_cons] at ih ⊢
      exact ih
    · simp [h, List.filter_cons] at ih ⊢

/-- C7: in a registry where `cur` is the one session named `r`, `SendMessage`
on the event `who r` ends without panic, leaves the registry unchanged, and
sends to `cur`, and to no other session, the two header lines followed by one
line (the name and a newline) for each session of the registry whose `logged`
flag is set, in registry order: no session that is not logged in is listed and
no logged-in session is left out. -/
theorem who_reply (chatBoard : ChatBoard) (heap : Heap) (r : String) (cur : Ptr)
    (hmem : cur ∈ chatBoard.clients) (hname : (heap cur).name = r)
    (huniq : ∀ q ∈ chatBoard.clients, (heap q).name = r → q = cur)
    (hs : ' ' ∉ r.data) (hr : '\n' ∉ r.data) :
    SendMessage chatBoard heap ("who " ++ r)
      = ⟨chatBoard.clients,
          (["Current online users\n", "--------------------\n"] ++
            (chatBoard.clients.filter (fun q => (heap q).logged)).map
              (fun q => (heap q).name ++ "\n")).map (fun l => (cur, l)),
          none⟩ ∧
    outbound (SendMessage chatBoard heap ("who " ++ r)).sent cur
      = ["Current online users\n", "--------------------\n"] ++
          (chatBoard.clients.filter (fun q => (heap q).logged)).map
            (fun q => (heap q).name ++ "\n") ∧
    (∀ q, q ≠ cur → outbound (SendMessage chatBoard heap ("who " ++ r)).sent q = []) := by
  have hev : SplitN (TrimRight ("who " ++ r) "\n") ' ' 4 = ["who", r] :=
    nameEvent_fields "who" r (by decide) hs hr
  have hany : chatBoard.clients.any (fun q => (heap q).name == r) = true :=
    List.any_eq_true.mpr ⟨cur, hmem, by simpa using hname⟩
  have hmain : SendMessage chatBoard heap ("who " ++ r)
      = ⟨chatBoard.clients,
          (["Current online users\n", "--------------------\n"] ++
            (chatBoard.clients.filter (fun q => (heap q).logged)).map
              (fun q => (heap q).name ++ "\n")).map (fun l => (cur, l)),
          none⟩ := by
    unfold SendMessage
    rw [hev]
    simp only [List.getElem?_cons_zero, if_true, whoBranch]
    rw [whoScan_eq heap "who" r cur chatBoard.clients none [] huniq, hany]
    simp [Function.comp_def]
  refine ⟨hmain, ?_, ?_⟩
  · rw [hmain]
    simp only [outbound_const, if_true]
  · intro q hq
    rw [hmain]
    simp only [outbound_const, if_neg (Ne.symm hq)]

/-- C7, witness: `alice` and `carol` are logged in, the session at address 1 is
not; `who alice` lists `alice` and `carol` to `alice`. -/
theorem who_reply_witness :
    (0 ∈ (ChatBoard.mk [0, 1, 2]).clients ∧
      (heapOf [⟨"alice", true, false⟩, New, ⟨"carol", true, false⟩] 0).name = "alice" ∧
      (∀ q ∈ (ChatBoard.mk [0, 1, 2]).clients,
        (heapOf [⟨"alice", true, false⟩, New, ⟨"carol", true, false⟩] q).name = "alice" →
          q = 0) ∧
      ' ' ∉ "alice".data ∧ '\n' ∉ "alice".data) ∧
    outbound (SendMessage ⟨[0, 1, 2]⟩
        (heapOf [⟨"alice", true, false⟩, New, ⟨"carol", true, false⟩]) "who alice").sent 0
      = ["Current online users\n", "--------------------\n", "alice\n", "carol\n"] :=
  ⟨by decide,
    (who_reply ⟨[0, 1, 2]⟩ (heapOf [⟨"alice", true, false⟩, New, ⟨"carol", true, false⟩])
      "alice" 0 (by decide) (by decide) (by decide) (by decide) (by decide)).2.1⟩

/-- C10, the code at the failing input: for the event `who bob` and a registry
without a session named `bob` (the empty registry, or one that holds only
`alice`) `currentUser` stays nil and the send `currentUser.out <- ...`
dereferences it: the call ends in a nil-dereference panic. -/
theorem who_absent_requester :
    SendMessage ⟨[]⟩ (heapOf []) "who bob" = ⟨[], [], some .nilDereference⟩ ∧
    SendMessage ⟨[0]⟩ (heapOf [⟨"alice", true, false⟩]) "who bob"
      = ⟨[0], [], some .nilDereference⟩ := by
  decide

/-! ## The router: logout -/

theorem logoutStep_other (heap : Heap) (w n : String) (st : LogoutState) (i : Nat)
    (c : Ptr) (hp : st.panic = none) (hc : st.arr[i]? = some c)
    (hne : (heap c).name ≠ n) :
    logoutStep heap [w, n] st i
      = { st with sent := st.sent ++ [(c, n ++ " has left the chat.\n")] } := by
  unfold logoutStep
  simp [hp, hc, hne]

theorem logoutStep_match (heap : Heap) (w n : String) (st : LogoutState) (i : Nat)
    (c : Ptr) (hp : st.panic = none) (hc : st.arr[i]? = some c)
    (heq : (heap c).name = n) (hi : i + 1 ≤ st.len) :
    logoutStep heap [w, n] st i
      = { arr := st.arr.take i ++ (st.arr.take st.len).drop (i + 1)
            ++ st.arr.drop ((st.arr.take i).length
                + ((st.arr.take st.len).drop (i + 1)).length)
          len := (st.arr.take i).length + ((st.arr.take st.len).drop (i + 1)).length
          sent := st.sent ++ [(c, n ++ " has left the chat.\n")]
          panic := none } := by
  unfold logoutStep
  have hi' : ¬ (i + 1 > st.len) := by omega
  simp [hp, hc, heq, hi']

/-- Iterations that read only clients with another name leave the backing array
and the length of the slice alone and do not panic. -/
theorem logoutLoop_other (heap : Heap) (w n : String) :
    ∀ (is : List Nat) (st : LogoutState), st.panic = none →
      (∀ i ∈ is, ∃ c, st.arr[i]? = some c ∧ (heap c).name ≠ n) →
      (is.foldl (logoutStep heap [w, n]) st).arr = st.arr ∧
      (is.foldl (logoutStep heap [w, n]) st).len = st.len ∧
      (is.foldl (logoutStep heap [w, n]) st).panic = none
  | [], st, hp, _ => ⟨rfl, rfl, hp⟩
  | i :: is, st, hp, h => by
    obtain ⟨c, hc, hne⟩ := h i (List.mem_cons_self i is)
    rw [List.foldl_cons, logoutStep_other heap w n st i c hp hc hne]
    exact logoutLoop_other heap w n is _ hp
      (fun j hj => h j (List.mem_cons_of_mem i hj))

theorem logoutBranch_unique (heap : Heap) (w n : String) (s : Ptr)
    (pre post : List Ptr) (hname : (heap s).name = n)
    (hothers : ∀ q ∈ pre ++ post, (heap q).name ≠ n) :
    (logoutBranch heap [w, n] (pre ++ s :: post)).panic = none ∧
    (logoutBranch heap [w, n] (pre ++ s :: post)).clients = pre ++ post := by
  unfold logoutBranch
  have hlen : (pre ++ s :: post).length = pre.length + (post.length + 1) := by simp
  rw [hlen, List.range_add, List.range_succ_eq_map, List.foldl_append, List.map_cons,
    List.foldl_cons]
  obtain ⟨ha1, hl1, hp1⟩ := logoutLoop_other heap w n (List.range pre.length)
    ⟨pre ++ s :: post, pre.length + (post.length + 1), [], none⟩ rfl (by
      intro i hi
      have hi' : i < pre.length := List.mem_range.mp hi
      refine ⟨pre[i], ?_, hothers _ (List.mem_append_left _ (List.getElem_mem hi'))⟩
      simp [List.getElem?_append_left hi'])
  generalize (List.range pre.length).foldl (logoutStep heap [w, n])
    ⟨pre ++ s :: post, pre.length + (post.length + 1), [], none⟩ = st1 at ha1 hl1 hp1 ⊢
  simp only at ha1 hl1
  have hc1 : st1.arr[pre.length + 0]? = some s := by
    rw [ha1, Nat.add_zero, List.getElem?_append_right (Nat.le_refl _)]
    simp
  have hi1 : pre.length + 0 + 1 ≤ st1.len := by rw [hl1]; omega
  have h_take : List.take (pre.length + 0) (pre ++ s :: post) = pre := by simp
  have h_full : List.take (pre.length + (post.length + 1)) (pre ++ s :: post)
      = pre ++ s :: post := by
    rw [← hlen]
    exact List.take_length _
  have h_drop : List.drop (pre.length + 0 + 1) (pre ++ s :: post) = post := by
    rw [Nat.add_zero, List.drop_append_eq_append_drop]
    simp
  rw [logoutStep_match heap w n st1 (pre.length + 0) s hp1 hc1 hname hi1]
  rw [ha1, hl1, h_full, h_take, h_drop]
  have htl : ∀ c ∈ List.drop (pre.length + post.length) (pre ++ s :: post),
      post ≠ [] → c ∈ post := by
    intro c hc hne
    cases post with
    | nil => exact absurd rfl hne
    | cons p ps =>
      have e : List.drop (pre.length + (p :: ps).length) (pre ++ s :: p :: ps)
          = List.drop ps.length (p :: ps) := by
        rw [List.drop_append_eq_append_drop]
        simp
      rw [e] at hc
      exact List.mem_of_mem_drop hc
  obtain ⟨ha3, hl3, hp3⟩ := logoutLoop_other heap w n
    (List.map (fun x => pre.length + x) (List.map Nat.succ (List.range post.length)))
    ⟨pre ++ post ++ List.drop (pre.length + post.length) (pre ++ s :: post),
      pre.length + post.length, st1.sent ++ [(s, n ++ " has left the chat.\n")], none⟩
    rfl (by
      intro j hj
      simp only [List.mem_map, List.mem_range] at hj
      obtain ⟨k', ⟨k, hk, rfl⟩, rfl⟩ := hj
      have hne : post ≠ [] := by
        intro h
        rw [h] at hk
        exact Nat.not_lt_zero _ hk
      have hjlt : pre.length + k.succ
          < (pre ++ post ++ List.drop (pre.length + post.length) (pre ++ s :: post)).length := by
        simp only [List.length_append, List.length_drop, List.length_cons]
        omega
      refine ⟨_, List.getElem?_eq_getElem hjlt, ?_⟩
      have hmem := List.getElem_mem hjlt
      rcases List.mem_append.mp hmem with h | h
      · exact hothers _ h
      · exact hothers _ (List.mem_append_right _ (htl _ h hne)))
  generalize List.foldl (logoutStep heap [w, n])
    ⟨pre ++ post ++ List.drop (pre.length + post.length) (pre ++ s :: post),
      pre.length + post.length, st1.sent ++ [(s, n ++ " has left the chat.\n")], none⟩
    (List.map (fun x => pre.length + x) (List.map Nat.succ (List.range post.length)))
    = st3 at ha3 hl3 hp3 ⊢
  simp only at ha3 hl3
  refine ⟨hp3, ?_⟩
  show List.take st3.len st3.arr = pre ++ post
  rw [ha3, hl3]
  exact List.take_left' (by simp)

/-- C8 (as amended): in a registry where `s` is the only session named `n`,
`SendMessage` on the event `logout n` ends without panic and leaves the old
registry with the entry `s` removed and every other entry in its place, in the
original order. -/
theorem logout_removes_session (chatBoard : ChatBoard) (heap : Heap) (n : String)
    (s : Ptr) (pre post : List Ptr) (hreg : chatBoard.clients = pre ++ s :: post)
    (hname : (heap s).name = n) (hothers : ∀ q ∈ pre ++ post, (heap q).name ≠ n)
    (hs : ' ' ∉ n.data) (hr : '\n' ∉ n.data) :
    (SendMessage chatBoard heap ("logout " ++ n)).panic = none ∧
    (SendMessage chatBoard heap ("logout " ++ n)).clients = pre ++ post := by
  have hev : SplitN (TrimRight ("logout " ++ n) "\n") ' ' 4 = ["logout", n] :=
    nameEvent_fields "logout" n (by decide) hs hr
  have hbr : SendMessage chatBoard heap ("logout " ++ n)
      = logoutBranch heap ["logout", n] (pre ++ s :: post) := by
    unfold SendMessage
    rw [hev, hreg]
    simp
  rw [hbr]
  exact logoutBranch_unique heap "logout" n s pre post hname hothers

/-- C8, witness: `bob` (address 1) logs out of the registry `alice`, `bob`,
`carol`, a fresh session; the registry keeps the other three in order. -/
theorem logout_removes_session_witness :
    ((ChatBoard.mk [0, 1, 2, 3]).clients = [0] ++ 1 :: [2, 3] ∧
      (heapOf [⟨"alice", true, false⟩, ⟨"bob", true, false⟩, ⟨"carol", true, false⟩, New]
        1).name = "bob" ∧
      (∀ q ∈ [0] ++ [2, 3],
        (heapOf [⟨"alice", true, false⟩, ⟨"bob", true, false⟩, ⟨"carol", true, false⟩, New]
          q).name ≠ "bob") ∧
      ' ' ∉ "bob".data ∧ '\n' ∉ "bob".data) ∧
    (SendMessage ⟨[0, 1, 2, 3]⟩
        (heapOf [⟨"alice", true, false⟩, ⟨"bob", true, false⟩, ⟨"carol", true, false⟩, New])
        "logout bob").panic = none ∧
    (SendMessage ⟨[0, 1, 2, 3]⟩
        (heapOf [⟨"alice", true, false⟩, ⟨"bob", true, false⟩, ⟨"carol", true, false⟩, New])
        "logout bob").clients = [0, 2, 3] :=
  ⟨by decide,
    logout_removes_session ⟨[0, 1, 2, 3]⟩
      (heapOf [⟨"alice", true, false⟩, ⟨"bob", true, false⟩, ⟨"carol", true, false⟩, New])
      "bob" 1 [0] [2, 3] (by decide) (by decide) (by decide) (by decide) (by decide)⟩

/-- C8, counterexample: two logged-in sessions (addresses 0 and 2) carry the name
`alice`, next to `bob` (1) and `dan` (3).  The event `logout alice` for the
session at address 0 removes both entries named `alice`: the registry left is
`bob`, `dan`, not the old registry without the one entry 0. -/
theorem logout_counterexample :
    (heapOf [⟨"alice", true, false⟩, ⟨"bob", true, false⟩, ⟨"alice", true, false⟩,
      ⟨"dan", true, false⟩] 0).logged = true ∧
    (heapOf [⟨"alice", true, false⟩, ⟨"bob", true, false⟩, ⟨"alice", true, false⟩,
      ⟨"dan", true, false⟩] 0).name = "alice" ∧
    (SendMessage ⟨[0, 1, 2, 3]⟩
      (heapOf [⟨"alice", true, false⟩, ⟨"bob", true, false⟩, ⟨"alice", true, false⟩,
        ⟨"dan", true, false⟩]) "logout alice").clients = [1, 3] ∧
    (SendMessage ⟨[0, 1, 2, 3]⟩
      (heapOf [⟨"alice", true, false⟩, ⟨"bob", true, false⟩, ⟨"alice", true, false⟩,
        ⟨"dan", true, false⟩]) "logout alice").clients ≠ [1, 2, 3] := by
  decide

/-- C9, the code at the failing input: `alice` (address 0), `bob` (1) and `carol`
(2) are logged in and `alice` logs out.  The entry is removed in place while
the loop still runs over the old slice, so the loop never reads `bob`: `bob`
stays in the registry, logged in, and gets no notice, while `carol` gets it
twice. -/
theorem logout_notice_skips :
    (SendMessage ⟨[0, 1, 2]⟩
      (heapOf [⟨"alice", true, false⟩, ⟨"bob", true, false⟩, ⟨"carol", true, false⟩])
      "logout alice")
      = ⟨[1, 2], [(0, "alice has left the chat.\n"), (2, "alice has left the chat.\n"),
          (2, "alice has left the chat.\n")], none⟩ ∧
    (heapOf [⟨"alice", true, false⟩, ⟨"bob", true, false⟩, ⟨"carol", true, false⟩]
      1).logged = true ∧
    outbound (SendMessage ⟨[0, 1, 2]⟩
      (heapOf [⟨"alice", true, false⟩, ⟨"bob", true, false⟩, ⟨"carol", true, false⟩])
      "logout alice").sent 1 = [] := by
  decide

/-! ## The case of the command word -/

/-- The v1 reader looks at the command word only through `ToLower`: two lines
whose first fields agree after lower-casing, with the same rest, have the same
effects. -/
theorem read_lower (creds : List Credentials) (client : Client)
    (m₁ m₂ c₁ c₂ : String) (rest : List String)
    (h₁ : SplitN (TrimRight m₁ "\n") ' ' 2 = c₁ :: rest)
    (h₂ : SplitN (TrimRight m₂ "\n") ' ' 2 = c₂ :: rest)
    (hc : ToLower c₁ = ToLower c₂) :
    read creds client m₁ = read creds client m₂ := by
  simp only [read, h₁, h₂, List.getD_cons_zero, List.getD_cons_succ,
    List.getElem?_cons_succ, List.length_cons, hc]

/-- C11, the code at the failing input: `alice` is registered with the password
`pw12`.  For a fresh session v2 `processCommand` logs `alice` in on the line
`login alice pw12` but answers `Command not found` to `LOGIN alice pw12`, with
no event and the session unchanged; for the logged-in `alice` it emits the
event `who alice` on `who` but answers `Command not found` to `Who`.  The v1
reader lower-cases the command word and treats `LOGIN alice pw12` exactly as
`login alice pw12`. -/
theorem processCommand_case_sensitive :
    processCommand [⟨"alice", "pw12"⟩] New "login alice pw12\n"
      = ⟨[⟨"alice", "pw12"⟩], ⟨"alice", true, false⟩,
          ["Server: Welcome alice, your login request was successful.\n"],
          ["loggedin alice"], none⟩ ∧
    processCommand [⟨"alice", "pw12"⟩] New "LOGIN alice pw12\n"
      = ⟨[⟨"alice", "pw12"⟩], New, ["Server: Command not found.\n"], [],
          some (.new "command not found")⟩ ∧
    processCommand [⟨"alice", "pw12"⟩] ⟨"alice", true, false⟩ "who\n"
      = ⟨[⟨"alice", "pw12"⟩], ⟨"alice", true, false⟩, [], ["who alice"], none⟩ ∧
    processCommand [⟨"alice", "pw12"⟩] ⟨"alice", true, false⟩ "Who\n"
      = ⟨[⟨"alice", "pw12"⟩], ⟨"alice", true, false⟩, ["Server: Command not found.\n"],
          [], some (.new "command not found")⟩ ∧
    read [⟨"alice", "pw12"⟩] New "login alice pw12\n"
      = ⟨[⟨"alice", "pw12"⟩], ⟨"alice", true, false⟩,
          ["Server: welcome alice, your login request was successful"], false, none⟩ ∧
    read [⟨"alice", "pw12"⟩] New "LOGIN alice pw12\n"
      = read [⟨"alice", "pw12"⟩] New "login alice pw12\n" := by
  decide

end SockChat
